import Mathlib

/-!
Shallow embedding of the LemLib hardware layer's motor-group component
(`src/src/hardware/Motor/Motor.cpp`, a translation unit holding both the
single-motor driver `lemlib::Motor` and `lemlib::MotorGroup`), together with
the variant revision in `src/unnamed/part_004` (namespace `P4` below), which
differs in its `getAngle`/`configureMotor` details and adds
`setCurrentLimit`.

Modelling conventions:
  * Machine `int` return codes are `Int`; the PROS error value `INT_MAX`
    is `intMax = 2^31 - 1`; `0` is success.
  * `Angle` values are rationals measured in standard rotations (`stRot`);
    the IEEE `INFINITY` error sentinel is `Option.none`, so the C++ type
    `Angle` becomes `EAngle := Option ℚ`.  The only non-finite angle the
    code ever produces is `+INFINITY`, so one sentinel suffices;
    `position + offset` with an infinite offset is `none` via `Option.map`.
  * The PROS device API (`motor_get_raw_position`, `get_plugged_type`,
    `motor_get_brake_mode`, `motor_set_brake_mode`, move/brake/current-limit
    commands, gear-cartridge introspection) is the external collaborator: a
    call's reply is drawn from an environment `Env`, fixed for the duration
    of one group operation (one poll cycle).  Device writes issued by the
    code are recorded as traces where a claim needs them, and do not change
    what the same cycle reads back.
  * The header declaring the one-argument `Motor` constructor used by
    `MotorGroup` (its default output velocity) is not among the source
    files; every group operation therefore takes that default `dv` as an
    explicit parameter and the theorems hold for all of its values.
-/

namespace lemlib

/-- Error return value of the C `int` convention (`INT_MAX`). -/
def intMax : Int := 2147483647

/-- Source `lemlib::BrakeMode` (`Motor.hpp`): COAST, BRAKE, HOLD, INVALID. -/
inductive BrakeMode where
  | coast
  | brake
  | hold
  | invalid
deriving DecidableEq, Repr

/-- The gear cartridges a motor can report (`Cartridge`); the C++ enum's
numeric values are the cartridges' rated velocities in rpm, read back via
`static_cast<int>(cartridge)`. -/
inductive Cartridge where
  | red
  | green
  | blue
deriving DecidableEq, Repr

/-- Rated velocity in rpm of a cartridge (the enum value used by
`from_rpm(static_cast<int>(cartridge))`). -/
def Cartridge.ratedRpm : Cartridge → ℚ
  | .red => 100
  | .green => 200
  | .blue => 600

/-- The C++ `Angle`: a finite value in standard rotations, or the
`INFINITY` error sentinel (`none`). -/
def EAngle := Option ℚ
deriving DecidableEq, Repr

/-- One poll cycle's device-side replies, per port value passed to the
PROS calls.  Queries are stable within a cycle. -/
structure Env where
  /-- `get_plugged_type(port) == E_DEVICE_MOTOR` -/
  connected : Int → Bool
  /-- `motor_get_raw_position(port, NULL)`; `none` is the `INT_MAX` error. -/
  rawTicks : Int → Option Int
  /-- `Motor::getCartridge()`: the device gearing mapped to `Cartridge`,
  `none` for `Cartridge::INVALID` (unreadable). -/
  cartridge : Int → Option Cartridge
  /-- `Motor::getBrakeMode()`: the device brake mode mapped through
  `motorBrakeToBrakeMode` (so unreadable becomes `BrakeMode.invalid`). -/
  brakeMode : Int → BrakeMode
  /-- Whether `Motor::setBrakeMode(port, mode)` returns 0. -/
  setBrakeModeOk : Int → BrakeMode → Bool
  /-- Return value of the single-motor driver's `Motor::move(percent)`
  (voltage scaling and motor-type probing bottom out in device calls). -/
  moveResult : Int → ℚ → Int
  /-- Return value of the single-motor driver's `Motor::brake()`. -/
  brakeResult : Int → Int
  /-- Whether `Motor::setCurrentLimit(port, value)` succeeds for a given
  per-motor limit value. -/
  setCurrentLimitOk : Int → ℚ → Bool

/-- The transient single-motor handle `lemlib::Motor`: a signed port
(the sign encodes reversal), the handle's `m_outputVelocity` in rpm, and
its software-tracked `m_offset`. -/
structure Motor where
  port : Int
  ov : ℚ
  offset : EAngle
deriving DecidableEq, Repr

/-- Source `Motor::getAngle()` (Motor.cpp:70-81): raw ticks, `INFINITY` on error;
`raw = ticks/3600` rotations; `position = raw * (m_outputVelocity/3600rpm)`;
result `position + m_offset` (infinite if the stored offset is infinite). -/
def Motor.getAngle (env : Env) (m : Motor) : EAngle :=
  match env.rawTicks m.port with
  | none => none
  | some t => m.offset.map (fun o => ((t : ℚ) / 3600) * (m.ov / 3600) + o)

/-- Source `Motor::setAngle(angle)` (Motor.cpp:83-94): fails (`none`) when the raw
position read errors, otherwise stores `m_offset = angle - position` and
returns the updated handle (return code 0). -/
def Motor.setAngle (env : Env) (m : Motor) (a : ℚ) : Option Motor :=
  match env.rawTicks m.port with
  | none => none
  | some t => some { m with offset := some (a - ((t : ℚ) / 3600) * (m.ov / 3600)) }

/-- Source `Motor::move(percent)`: the driver's return code, device-decided. -/
def Motor.move (env : Env) (m : Motor) (percent : ℚ) : Int :=
  env.moveResult m.port percent

/-- Source `Motor::brake()`: the driver's return code, device-decided. -/
def Motor.brake (env : Env) (m : Motor) : Int :=
  env.brakeResult m.port

/-- One record of the group (`MotorInfo`): signed port, whether the motor
was seen connected last cycle, and its stored angle offset (which the group
stores as an `Angle`, so it can be the `INFINITY` sentinel). -/
structure MotorInfo where
  port : Int
  connectedLastCycle : Bool
  offset : EAngle
deriving DecidableEq, Repr

/-- Source `lemlib::MotorGroup` state: the records, the group's canonical brake
mode and its nominal output velocity (rpm). -/
structure MotorGroup where
  m_motors : List MotorInfo
  m_brakeMode : BrakeMode
  m_outputVelocity : ℚ
deriving DecidableEq, Repr

/-- Result of `MotorGroup::configureMotor`: the returned offset
(`none` = the `INFINITY` failure return), plus the trace of brake-mode
device writes the call issued and the reference angle it computed
(the local `angle` passed to `setAngle`). -/
structure ConfigResult where
  ret : EAngle
  brakeWrites : List (Int × BrakeMode)
  refAngle : ℚ
  success : Bool
deriving DecidableEq, Repr

/-- The per-record data `configureMotor` reads from `m_motors`:
`info.port` and `info.offset` only (it never reads `connectedLastCycle`). -/
def recView (rs : List MotorInfo) : List (Int × EAngle) :=
  rs.map (fun r => (r.port, r.offset))

/-- The loop body of `configureMotor`'s reference-angle accumulation
(Motor.cpp:408-424), threading the running `(tempAngle, errors)` pair
left to right: per other live motor, an unreadable angle or an unreadable
cartridge counts as an error, otherwise the reported angle is added to
the sum as-is (no gear-ratio scaling appears in this loop). -/
def cfgFoldGo (env : Env) : List Motor → ℚ × Nat → ℚ × Nat
  | [], acc => acc
  | m :: rest, acc =>
    cfgFoldGo env rest
      (match Motor.getAngle env m, env.cartridge m.port with
       | some a, some _ => (acc.1 + a, acc.2)
       | _, _ => (acc.1, acc.2 + 1))

/-- Source `configureMotor`'s `(tempAngle, errors)` after its reference-angle
loop, starting from `(0_stDeg, 0)`. -/
def cfgFold (env : Env) (handles : List Motor) : ℚ × Nat :=
  cfgFoldGo env handles (0, 0)

/-- The "working motors" list both revisions' `configureMotor` builds
(Motor.cpp:391-405): records whose absolute port differs from the one
being configured and whose motor is connected, as handles carrying the
record's port and offset; `hv` is the output velocity the temporary
handles are constructed with. -/
def cfgOthers (hv : ℚ) (env : Env) (ms : List (Int × EAngle)) (port : Int) :
    List Motor :=
  (ms.filter (fun pr => pr.1.natAbs ≠ port.natAbs && env.connected pr.1)).map
    (fun pr => ⟨pr.1, hv, pr.2⟩)

/-- Source `MotorGroup::configureMotor(port)` (Motor.cpp:364-434).  `dv` is the
default output velocity of the one-argument `Motor` constructor, `ms` the
ports and offsets of `m_motors` as the call sees them.
  * Brake loop (lines 374-384): the first record whose motor reports a
    valid brake mode has that same mode written back to that motor itself
    (`m.setBrakeMode(mode)` where `mode = m.getBrakeMode()`); a failed
    write clears `success`.  The loop does not skip the record of `port`.
  * `motor.getCartridge()` of the reconfigured motor only feeds the
    `success` flag.
  * Reference angle: plain mean over the other connected motors' reported
    angles, errors excluded from sum and divisor, 0 if all erred.
  * `motor.setAngle(angle)`: failure returns `INFINITY`; otherwise the
    return value is the new offset when `success` held, else `INFINITY`. -/
def MotorGroup.configureMotor (dv : ℚ) (env : Env) (ms : List (Int × EAngle))
    (port : Int) : ConfigResult :=
  let src := ms.find? (fun pr => env.brakeMode pr.1 ≠ BrakeMode.invalid)
  let brakeWrites : List (Int × BrakeMode) :=
    match src with
    | none => []
    | some pr => [(pr.1, env.brakeMode pr.1)]
  let success1 : Bool :=
    match src with
    | none => true
    | some pr => env.setBrakeModeOk pr.1 (env.brakeMode pr.1)
  let success : Bool := success1 && (env.cartridge port).isSome
  let handles : List Motor := cfgOthers dv env ms port
  let fe := cfgFold env handles
  let refAngle : ℚ :=
    if handles.length ≠ fe.2 then fe.1 / ((handles.length : ℚ) - (fe.2 : ℚ)) else 0
  match env.rawTicks port with
  | none => ⟨none, brakeWrites, refAngle, success⟩
  | some t =>
    let offset := refAngle - ((t : ℚ) / 3600) * (dv / 3600)
    ⟨if success then some offset else none, brakeWrites, refAngle, success⟩

/-- The brake-mode step of the `getMotors` loop (Motor.cpp:350-354): a
motor whose reported mode differs from the group's must accept
`setBrakeMode(m_brakeMode)`; one whose mode matches passes unless that
shared mode is INVALID. -/
def brakeOk (env : Env) (bm : BrakeMode) (p : Int) : Bool :=
  if env.brakeMode p ≠ bm then env.setBrakeModeOk p bm
  else decide (env.brakeMode p ≠ BrakeMode.invalid)

/-- One iteration of the `MotorGroup::getMotors` loop (Motor.cpp:332-358)
for one record, against the cycle's environment.  Returns the live handle
(if the record passes), the updated record, and whether `configureMotor`
was invoked for it.  `ctx` is the port/offset view of `m_motors` passed to
`configureMotor` (the loop mutates only `connectedLastCycle`, which
`configureMotor` never reads). -/
def pollStep (dv : ℚ) (env : Env) (bm : BrakeMode) (ctx : List (Int × EAngle))
    (r : MotorInfo) : Option Motor × MotorInfo × Bool :=
  if env.connected r.port = false then
    (none, { r with connectedLastCycle := false }, false)
  else if r.connectedLastCycle = false ∧
      (MotorGroup.configureMotor dv env ctx r.port).ret = none then
    (none, r, true)
  else if brakeOk env bm r.port then
    (some ⟨r.port, dv, r.offset⟩, { r with connectedLastCycle := true },
     decide (r.connectedLastCycle = false))
  else (none, r, decide (r.connectedLastCycle = false))

/-- Source `MotorGroup::getMotors()` (Motor.cpp:330-360): processes every record
in order, returning this cycle's live handles, the group with updated
records, and the list of ports for which `configureMotor` ran. -/
def MotorGroup.getMotors (dv : ℚ) (env : Env) (g : MotorGroup) :
    List Motor × MotorGroup × List Int :=
  let ctx := recView g.m_motors
  let steps := g.m_motors.map (pollStep dv env g.m_brakeMode ctx)
  (steps.filterMap (fun s => s.1),
   { g with m_motors := steps.map (fun s => s.2.1) },
   (steps.filter (fun s => s.2.2)).map (fun s => s.2.1.port))

/-- Source `MotorGroup::getSize()` (Motor.cpp:284-290): polls, then counts the
live motors that report connected. -/
def MotorGroup.getSize (dv : ℚ) (env : Env) (g : MotorGroup) : Nat × MotorGroup :=
  let p := MotorGroup.getMotors dv env g
  ((p.1.filter (fun m => env.connected m.port)).length, p.2.1)

/-- The loop body of `MotorGroup::getAngle` (Motor.cpp:236-252),
threading the running `(angle, errors)` pair left to right: per live
motor, an unreadable angle or cartridge is an error; otherwise
`result * (m_outputVelocity / cartridge rpm)` is added. -/
def groupAngleGo (env : Env) (ov : ℚ) : List Motor → ℚ × Nat → ℚ × Nat
  | [], acc => acc
  | m :: rest, acc =>
    groupAngleGo env ov rest
      (match Motor.getAngle env m, env.cartridge m.port with
       | some a, some c => (acc.1 + a * (ov / Cartridge.ratedRpm c), acc.2)
       | _, _ => (acc.1, acc.2 + 1))

/-- Source `getAngle`'s `(angle, errors)` after its loop, from `(0_stDeg, 0)`. -/
def groupAngleFold (env : Env) (ov : ℚ) (motors : List Motor) : ℚ × Nat :=
  groupAngleGo env ov motors (0, 0)

/-- Source `MotorGroup::getAngle()` (Motor.cpp:231-257): polls, folds the live
motors; if every live motor erred (also when there are none) returns the
`INFINITY` sentinel, otherwise `angle / (getSize() - errors)`. -/
def MotorGroup.getAngle (dv : ℚ) (env : Env) (g : MotorGroup) :
    EAngle × MotorGroup :=
  let p := MotorGroup.getMotors dv env g
  let fe := groupAngleFold env g.m_outputVelocity p.1
  if fe.2 = p.1.length then (none, p.2.1)
  else
    let sz := MotorGroup.getSize dv env p.2.1
    (some (fe.1 / ((sz.1 : ℚ) - (fe.2 : ℚ))), sz.2)

/-- Source `MotorGroup::move(percent)` (Motor.cpp:170-179): polls, issues the
command to every live motor, 0 iff some motor's `move` returned 0,
otherwise `INT_MAX`. -/
def MotorGroup.move (dv : ℚ) (env : Env) (g : MotorGroup) (percent : ℚ) :
    Int × MotorGroup :=
  let p := MotorGroup.getMotors dv env g
  (if p.1.any (fun m => Motor.move env m percent = 0) then 0 else intMax, p.2.1)

/-- Source `MotorGroup::brake()` (Motor.cpp:199-208): polls, brakes every live
motor, 0 iff some motor's `brake` returned 0, otherwise `INT_MAX`. -/
def MotorGroup.brake (dv : ℚ) (env : Env) (g : MotorGroup) : Int × MotorGroup :=
  let p := MotorGroup.getMotors dv env g
  (if p.1.any (fun m => Motor.brake env m = 0) then 0 else intMax, p.2.1)

/-- Result of `MotorGroup::addMotor(port)`: the return code, whether the
`errno = EEXIST` branch was taken, and the updated group. -/
structure AddResult where
  ret : Int
  eexist : Bool
  state : MotorGroup
deriving DecidableEq, Repr

/-- Source `MotorGroup::addMotor(port)` (Motor.cpp:292-308): a record with the
same absolute port makes it return `INT_MAX` with `errno = EEXIST` and no
state change.  Otherwise `configureMotor` runs; the record is pushed with
`connectedLastCycle = (offset == INFINITY)` (true exactly when
configuration failed) and offset = the configure return; the call returns
`INT_MAX` when the configure offset is `INFINITY`, else 0. -/
def MotorGroup.addMotor (dv : ℚ) (env : Env) (g : MotorGroup) (port : Int) :
    AddResult :=
  if g.m_motors.any (fun info => info.port.natAbs = port.natAbs) then
    ⟨intMax, true, g⟩
  else
    let c := MotorGroup.configureMotor dv env (recView g.m_motors) port
    let info : MotorInfo := ⟨port, c.ret.isNone, c.ret⟩
    ⟨if c.ret.isNone then intMax else 0, false,
     { g with m_motors := g.m_motors ++ [info] }⟩

namespace P4

/-- The reference-angle loop of the `part_004` revision's
`configureMotor` (part_004:267-278): only an unreadable angle counts as
an error; no cartridge query appears in this loop. -/
def cfgFoldGo (env : Env) : List Motor → ℚ × Nat → ℚ × Nat
  | [], acc => acc
  | m :: rest, acc =>
    cfgFoldGo env rest
      (match Motor.getAngle env m with
       | some a => (acc.1 + a, acc.2)
       | none => (acc.1, acc.2 + 1))

/-- The `part_004` `(tempAngle, errors)` after the loop, from `(0, 0)`. -/
def cfgFold (env : Env) (handles : List Motor) : ℚ × Nat :=
  cfgFoldGo env handles (0, 0)

/-- Source `MotorGroup::configureMotor(port)` of the `part_004` revision
(part_004:227-288).  Same brake-mode loop (written back to the motor it
was read from); no cartridge check; every temporary `Motor` is built with
the group's `m_outputVelocity` (`ov`); the mean is over the other
connected motors' reported angles, angle errors excluded; `setAngle`
failure, or a failed brake write, returns `INFINITY`. -/
def configureMotor (env : Env) (ov : ℚ) (ms : List (Int × EAngle))
    (port : Int) : ConfigResult :=
  let src := ms.find? (fun pr => env.brakeMode pr.1 ≠ BrakeMode.invalid)
  let brakeWrites : List (Int × BrakeMode) :=
    match src with
    | none => []
    | some pr => [(pr.1, env.brakeMode pr.1)]
  let success : Bool :=
    match src with
    | none => true
    | some pr => env.setBrakeModeOk pr.1 (env.brakeMode pr.1)
  let handles : List Motor := cfgOthers ov env ms port
  let fe := cfgFold env handles
  let refAngle : ℚ :=
    if handles.length ≠ fe.2 then fe.1 / ((handles.length : ℚ) - (fe.2 : ℚ)) else 0
  match env.rawTicks port with
  | none => ⟨none, brakeWrites, refAngle, success⟩
  | some t =>
    let offset := refAngle - ((t : ℚ) / 3600) * (ov / 3600)
    ⟨if success then some offset else none, brakeWrites, refAngle, success⟩

/-- One iteration of the `part_004` revision's `getMotors` loop
(part_004:193-223); the handle is built with the group's
`m_outputVelocity`, the rest matches the main revision. -/
def pollStep (env : Env) (ov : ℚ) (bm : BrakeMode) (ctx : List (Int × EAngle))
    (r : MotorInfo) : Option Motor × MotorInfo :=
  if env.connected r.port = false then
    (none, { r with connectedLastCycle := false })
  else if r.connectedLastCycle = false ∧ (configureMotor env ov ctx r.port).ret = none then
    (none, r)
  else if brakeOk env bm r.port then
    (some ⟨r.port, ov, r.offset⟩, { r with connectedLastCycle := true })
  else (none, r)

/-- Source `MotorGroup::getMotors()` of the `part_004` revision (part_004:193-223). -/
def getMotors (env : Env) (g : MotorGroup) : List Motor × MotorGroup :=
  let ctx := recView g.m_motors
  let steps := g.m_motors.map (pollStep env g.m_outputVelocity g.m_brakeMode ctx)
  (steps.filterMap (fun s => s.1), { g with m_motors := steps.map (fun s => s.2) })

/-- Source `MotorGroup::setCurrentLimit(limit)` (part_004:129-138), with explicit
fuel for its unbounded self-recursion: polls; zero live motors is an
immediate `INT_MAX`; otherwise each live motor is issued
`limit / motors.size()`, and the first per-motor failure restarts the
whole call (`return setCurrentLimit(limit)`); an all-success pass returns
0.  `none` means the recursion consumed all fuel without returning. -/
def setCurrentLimitFuel (env : Env) : Nat → MotorGroup → ℚ → Option (Int × MotorGroup)
  | 0, _, _ => none
  | n + 1, g, limit =>
    let p := getMotors env g
    if p.1.length = 0 then some (intMax, p.2)
    else
      match p.1.find? (fun m => !env.setCurrentLimitOk m.port (limit / (p.1.length : ℚ))) with
      | some _ => setCurrentLimitFuel env n p.2 limit
      | none => some (0, p.2)

/-- Source `setCurrentLimit` terminates on a group and limit (for some fuel the
recursion returns). -/
def SclTerminates (env : Env) (g : MotorGroup) (limit : ℚ) : Prop :=
  ∃ n r, setCurrentLimitFuel env n g limit = some r

end P4

/-- This cycle's live motors: the handles `getMotors` returns. -/
def liveMotors (dv : ℚ) (env : Env) (g : MotorGroup) : List Motor :=
  (MotorGroup.getMotors dv env g).1

/-- A live motor qualifies for the group angle when it reports a valid
angle and a valid cartridge. -/
def qualifies (env : Env) (m : Motor) : Bool :=
  (Motor.getAngle env m).isSome && (env.cartridge m.port).isSome

/-- A qualifying motor's contribution to the group angle sum:
its reported angle times its gear ratio
`m_outputVelocity / cartridge rated rpm`; 0 when it does not qualify. -/
def groupContrib (env : Env) (ov : ℚ) (m : Motor) : ℚ :=
  match Motor.getAngle env m, env.cartridge m.port with
  | some a, some c => a * (ov / Cartridge.ratedRpm c)
  | _, _ => 0

/-- Number of this cycle's live motors that also report a valid angle and
cartridge (those counted in `getAngle`'s divisor). -/
def qualCount (dv : ℚ) (env : Env) (g : MotorGroup) : Nat :=
  ((liveMotors dv env g).filter (qualifies env)).length

/-- The group-angle numerator: the sum, over the qualifying live motors,
of reported angle times gear ratio. -/
def qualSum (dv : ℚ) (env : Env) (g : MotorGroup) : ℚ :=
  (((liveMotors dv env g).filter (qualifies env)).map
    (groupContrib env g.m_outputVelocity)).sum

/-- A contributing motor's unscaled term in `configureMotor`'s reference
mean: its reported angle when both its angle and cartridge are readable,
0 otherwise. -/
def cfgContrib (env : Env) (m : Motor) : ℚ :=
  match Motor.getAngle env m, env.cartridge m.port with
  | some a, some _ => a
  | _, _ => 0

/-- Qualifying contributors to `configureMotor`'s reference mean. -/
def cfgQualCount (dv : ℚ) (env : Env) (ms : List (Int × EAngle)) (port : Int) : Nat :=
  ((cfgOthers dv env ms port).filter (qualifies env)).length

/-- Sum of the qualifying contributors' reported angles (unscaled). -/
def cfgQualSum (dv : ℚ) (env : Env) (ms : List (Int × EAngle)) (port : Int) : ℚ :=
  (((cfgOthers dv env ms port).filter (qualifies env)).map (cfgContrib env)).sum

/-- The reference angle the specification describes for reconfiguration:
the mean over the other connected motors — the one being reconfigured
excluded — of each contributing motor's reported angle scaled by that
motor's own gear ratio (`outputVelocity / its cartridge's rated rpm`),
motors failing to report angle or cartridge excluded from sum and
divisor, and zero when every other motor fails.  Stated from the spec's
words, to be compared with the source's `configureMotor`. -/
def specRefAngle (dv : ℚ) (env : Env) (ov : ℚ) (ms : List (Int × EAngle))
    (port : Int) : ℚ :=
  let qual := (cfgOthers dv env ms port).filter (qualifies env)
  if qual.length = 0 then 0
  else (qual.map (groupContrib env ov)).sum / (qual.length : ℚ)

/-- Modelled from the spec: the header declaring the one-argument
`lemlib::Motor` constructor (used throughout `MotorGroup`) is not among
the source files, so its default output velocity is unknown.  The group
theorems below are proved for every value `dv` of that constant; concrete
witnesses instantiate it with 3600 rpm, the value that makes the driver's
`raw * (outputVelocity / 3600_rpm)` scaling the identity. -/
def defaultOutputVelocity : ℚ := 3600

/-- A healthy two-motor cycle: ports 1 and 2 connected, raw readings 3600
and 7200 ticks, green cartridges, brake modes already at COAST, every
command accepted. -/
def envTwo : Env where
  connected := fun p => p = 1 || p = 2
  rawTicks := fun p => if p = 1 then some 3600 else if p = 2 then some 7200 else none
  cartridge := fun p => if p = 1 || p = 2 then some .green else none
  brakeMode := fun p => if p = 1 || p = 2 then .coast else .invalid
  setBrakeModeOk := fun _ _ => true
  moveResult := fun p _ => if p = 1 then 0 else intMax
  brakeResult := fun _ => intMax
  setCurrentLimitOk := fun _ _ => true

/-- A two-record group on ports 1 and 2, zero offsets, COAST, 200 rpm
output. -/
def gTwo : MotorGroup :=
  ⟨[⟨1, true, some 0⟩, ⟨2, true, some 0⟩], .coast, 200⟩

/-- Reconfiguration scene for the reference-angle counterexample: port 2
is being configured; the only other motor, port 1, reads 0 raw ticks with
a stored offset of 90 rotations (so it reports angle 90 whatever the
constructor default is) and carries a RED (100 rpm) cartridge, while the
group's output velocity is 200 rpm — so the spec's per-motor gear ratio
for port 1 is 200/100 = 2. -/
def envCfg : Env where
  connected := fun p => p = 1 || p = 2
  rawTicks := fun p => if p = 1 || p = 2 then some 0 else none
  cartridge := fun p => if p = 1 || p = 2 then some .red else none
  brakeMode := fun p => if p = 1 || p = 2 then .coast else .invalid
  setBrakeModeOk := fun _ _ => true
  moveResult := fun _ _ => intMax
  brakeResult := fun _ => intMax
  setCurrentLimitOk := fun _ _ => true

/-- The record view seen while configuring port 2: port 1 with offset 90,
and port 2's own record with offset 0. -/
def msCfg : List (Int × EAngle) := [(1, some 90), (2, some 0)]

/-- Brake-propagation scene: the other motor (port 1) reports HOLD, every
brake-mode write is accepted, the reconnecting motor is port 2. -/
def envHold : Env where
  connected := fun p => p = 1 || p = 2
  rawTicks := fun p => if p = 1 || p = 2 then some 0 else none
  cartridge := fun p => if p = 1 || p = 2 then some .green else none
  brakeMode := fun p => if p = 1 then .hold else .invalid
  setBrakeModeOk := fun _ _ => true
  moveResult := fun _ _ => intMax
  brakeResult := fun _ => intMax
  setCurrentLimitOk := fun _ _ => true

/-- A cycle in which port 2 is connected but its raw position read fails
(`motor_get_raw_position` returns `INT_MAX`), so configuring port 2
fails; port 1 is healthy. -/
def envTicksBad : Env where
  connected := fun p => p = 1 || p = 2
  rawTicks := fun p => if p = 1 then some 0 else none
  cartridge := fun p => if p = 1 || p = 2 then some .green else none
  brakeMode := fun p => if p = 1 || p = 2 then .coast else .invalid
  setBrakeModeOk := fun _ _ => true
  moveResult := fun _ _ => intMax
  brakeResult := fun _ => intMax
  setCurrentLimitOk := fun _ _ => true

/-- The next cycle: both ports fully healthy. -/
def envHealed : Env where
  connected := fun p => p = 1 || p = 2
  rawTicks := fun p => if p = 1 || p = 2 then some 0 else none
  cartridge := fun p => if p = 1 || p = 2 then some .green else none
  brakeMode := fun p => if p = 1 || p = 2 then .coast else .invalid
  setBrakeModeOk := fun _ _ => true
  moveResult := fun _ _ => intMax
  brakeResult := fun _ => intMax
  setCurrentLimitOk := fun _ _ => true

/-- A single-record group on port 1, COAST, 200 rpm output. -/
def gOne : MotorGroup := ⟨[⟨1, true, some 0⟩], .coast, 200⟩

/-- A cycle in which port 1 stays connected and healthy but rejects every
`setCurrentLimit` command. -/
def envSclBad : Env where
  connected := fun p => p = 1
  rawTicks := fun p => if p = 1 then some 0 else none
  cartridge := fun p => if p = 1 then some .green else none
  brakeMode := fun p => if p = 1 then .coast else .invalid
  setBrakeModeOk := fun _ _ => true
  moveResult := fun _ _ => intMax
  brakeResult := fun _ => intMax
  setCurrentLimitOk := fun _ _ => false

/-- The empty group, COAST, 200 rpm output. -/
def gNone : MotorGroup := ⟨[], .coast, 200⟩

/-- A poll iteration only rewrites a record's `connectedLastCycle`; its
port and offset are untouched. -/
lemma pollStep_port_offset (dv : ℚ) (env : Env) (bm : BrakeMode)
    (ctx : List (Int × EAngle)) (r : MotorInfo) :
    ((pollStep dv env bm ctx r).2.1).port = r.port ∧
      ((pollStep dv env bm ctx r).2.1).offset = r.offset := by
  unfold pollStep
  split
  · exact ⟨rfl, rfl⟩
  · split
    · exact ⟨rfl, rfl⟩
    · split
      · exact ⟨rfl, rfl⟩
      · exact ⟨rfl, rfl⟩

/-- A live handle produced by a poll iteration is the record's port and
offset with the constructor-default output velocity, and its record was
connected. -/
lemma pollStep_live (dv : ℚ) (env : Env) (bm : BrakeMode)
    (ctx : List (Int × EAngle)) (r : MotorInfo) (m : Motor) :
    (pollStep dv env bm ctx r).1 = some m →
      m = ⟨r.port, dv, r.offset⟩ ∧ env.connected r.port = true := by
  unfold pollStep
  split
  · intro h; cases h
  next hcon =>
    split
    · intro h; cases h
    · split
      · intro h
        cases h
        exact ⟨rfl, by simpa using hcon⟩
      · intro h; cases h

/-- Running a poll iteration on the record a previous iteration produced
(against the same cycle's replies) returns the same live handle and
leaves the record fixed. -/
lemma pollStep_idem (dv : ℚ) (env : Env) (bm : BrakeMode)
    (ctx : List (Int × EAngle)) (r : MotorInfo) :
    pollStep dv env bm ctx ((pollStep dv env bm ctx r).2.1) =
      ((pollStep dv env bm ctx r).1, (pollStep dv env bm ctx r).2.1,
        (pollStep dv env bm ctx ((pollStep dv env bm ctx r).2.1)).2.2) := by
  obtain ⟨p, c, o⟩ := r
  by_cases hc : env.connected p = false
  · simp [pollStep, hc]
  · cases c
    · by_cases hcfg : (MotorGroup.configureMotor dv env ctx p).ret = none
      · simp [pollStep, hc, hcfg]
      · cases hok : brakeOk env bm p
        · simp [pollStep, hc, hcfg, hok]
        · simp [pollStep, hc, hcfg, hok]
    · cases hok : brakeOk env bm p
      · simp [pollStep, hc, hok]
      · simp [pollStep, hc, hok]

/-- The records after a poll, as a map of `pollStep` over the records. -/
lemma getMotors_records (dv : ℚ) (env : Env) (g : MotorGroup) :
    (MotorGroup.getMotors dv env g).2.1.m_motors =
      g.m_motors.map
        (fun r => (pollStep dv env g.m_brakeMode (recView g.m_motors) r).2.1) := by
  simp [MotorGroup.getMotors, List.map_map]

/-- Polling does not change the group's brake mode. -/
lemma getMotors_brakeMode (dv : ℚ) (env : Env) (g : MotorGroup) :
    (MotorGroup.getMotors dv env g).2.1.m_brakeMode = g.m_brakeMode := rfl

/-- Polling does not change the group's output velocity. -/
lemma getMotors_outputVelocity (dv : ℚ) (env : Env) (g : MotorGroup) :
    (MotorGroup.getMotors dv env g).2.1.m_outputVelocity = g.m_outputVelocity := rfl

/-- Polling leaves every record's port and offset alone, so the view
`configureMotor` reads is unchanged. -/
lemma recView_after (dv : ℚ) (env : Env) (g : MotorGroup) :
    recView (MotorGroup.getMotors dv env g).2.1.m_motors = recView g.m_motors := by
  rw [getMotors_records]
  unfold recView
  rw [List.map_map]
  apply List.map_congr_left
  intro r _
  have h := pollStep_port_offset dv env g.m_brakeMode (recView g.m_motors) r
  simp only [Function.comp, Prod.ext_iff]
  exact ⟨h.1, h.2⟩

/-- Running the poll loop over once-processed records, against the same
cycle, extracts the same live handles. -/
lemma filterMap_pollStep_idem (dv : ℚ) (env : Env) (bm : BrakeMode)
    (ctx : List (Int × EAngle)) :
    ∀ rs : List MotorInfo,
      (rs.map (pollStep dv env bm ctx ∘ fun r => (pollStep dv env bm ctx r).2.1)).filterMap
          (fun s => s.1) =
        (rs.map (pollStep dv env bm ctx)).filterMap (fun s => s.1) := by
  intro rs
  induction rs with
  | nil => rfl
  | cons r rest ih =>
    simp only [List.map_cons, List.filterMap_cons, Function.comp]
    have h1 : (pollStep dv env bm ctx ((pollStep dv env bm ctx r).2.1)).1 =
        (pollStep dv env bm ctx r).1 := by
      rw [pollStep_idem dv env bm ctx r]
    rw [h1, ih]

/-- Re-polling the state a poll produced, in the same cycle, yields the
same live handles. -/
lemma getMotors_idem_live (dv : ℚ) (env : Env) (g : MotorGroup) :
    (MotorGroup.getMotors dv env (MotorGroup.getMotors dv env g).2.1).1 =
      (MotorGroup.getMotors dv env g).1 := by
  have h1 : (MotorGroup.getMotors dv env (MotorGroup.getMotors dv env g).2.1).1 =
      ((MotorGroup.getMotors dv env g).2.1.m_motors.map
        (pollStep dv env (MotorGroup.getMotors dv env g).2.1.m_brakeMode
          (recView (MotorGroup.getMotors dv env g).2.1.m_motors))).filterMap
        (fun s => s.1) := rfl
  rw [h1, getMotors_brakeMode, recView_after, getMotors_records, List.map_map]
  have h2 : (MotorGroup.getMotors dv env g).1 =
      (g.m_motors.map (pollStep dv env g.m_brakeMode (recView g.m_motors))).filterMap
        (fun s => s.1) := rfl
  rw [h2]
  exact filterMap_pollStep_idem dv env g.m_brakeMode (recView g.m_motors) g.m_motors

/-- Every live handle's port was reported connected this cycle. -/
lemma live_connected (dv : ℚ) (env : Env) (g : MotorGroup) :
    ∀ m ∈ (MotorGroup.getMotors dv env g).1, env.connected m.port = true := by
  intro m hm
  unfold MotorGroup.getMotors at hm
  simp only [List.filterMap_map, List.mem_filterMap] at hm
  obtain ⟨r, _, hsome⟩ := hm
  obtain ⟨hm2, hcon⟩ :=
    pollStep_live dv env g.m_brakeMode (recView g.m_motors) r m hsome
  rw [hm2]
  exact hcon

/-- Source `getSize` run on the state a poll produced counts exactly that poll's
live handles. -/
lemma getSize_after (dv : ℚ) (env : Env) (g : MotorGroup) :
    (MotorGroup.getSize dv env (MotorGroup.getMotors dv env g).2.1).1 =
      (MotorGroup.getMotors dv env g).1.length := by
  unfold MotorGroup.getSize
  simp only [getMotors_idem_live]
  rw [List.filter_eq_self.mpr]
  intro m hm
  exact live_connected dv env g m hm

/-- The `getAngle` loop accumulates the sum of the qualifying motors'
ratio-scaled angles and counts the non-qualifying ones. -/
lemma groupAngleGo_spec (env : Env) (ov : ℚ) :
    ∀ (l : List Motor) (a : ℚ) (k : Nat),
      groupAngleGo env ov l (a, k) =
        (a + (l.map (groupContrib env ov)).sum,
         k + (l.filter (fun m => !qualifies env m)).length) := by
  intro l
  induction l with
  | nil => intro a k; simp [groupAngleGo]
  | cons m rest ih =>
    intro a k
    rcases h1 : Motor.getAngle env m with _ | x
    · simp only [groupAngleGo, h1, ih]
      simp [qualifies, groupContrib, h1]
      omega
    · rcases h2 : env.cartridge m.port with _ | c
      · simp only [groupAngleGo, h1, h2, ih]
        simp [qualifies, groupContrib, h1, h2]
        omega
      · simp only [groupAngleGo, h1, h2, ih]
        simp [qualifies, groupContrib, h1, h2]
        ring

/-- Non-qualifying motors contribute zero, so summing contributions over
the qualifying motors equals summing them over all of them. -/
lemma qualSum_eq_total (env : Env) (ov : ℚ) (l : List Motor) :
    ((l.filter (qualifies env)).map (groupContrib env ov)).sum =
      (l.map (groupContrib env ov)).sum := by
  induction l with
  | nil => rfl
  | cons m rest ih =>
    cases hq : qualifies env m
    · have hz : groupContrib env ov m = 0 := by
        unfold qualifies at hq
        unfold groupContrib
        rcases h1 : Motor.getAngle env m with _ | x <;>
          rcases h2 : env.cartridge m.port with _ | c <;>
          simp [h1, h2] at hq ⊢

      simp [List.filter_cons, hq, ih, hz]
    · simp [List.filter_cons, hq, ih]

/-- Splitting a list by a predicate preserves length. -/
lemma length_filter_not_add (q : Motor → Bool) (l : List Motor) :
    (l.filter (fun m => !q m)).length + (l.filter q).length = l.length := by
  induction l with
  | nil => rfl
  | cons m rest ih => cases h : q m <;> simp [List.filter_cons, h] <;> omega

/-- Characterization of `MotorGroup::getAngle` for one stable cycle: the
`INFINITY` sentinel exactly when no live motor reports both a valid angle
and a valid cartridge, otherwise the mean over the qualifying live motors
of reported angle times that motor's gear ratio. -/
lemma getAngle_spec (dv : ℚ) (env : Env) (g : MotorGroup) :
    (MotorGroup.getAngle dv env g).1 =
      if qualCount dv env g = 0 then none
      else some (qualSum dv env g / (qualCount dv env g : ℚ)) := by
  have hcnt := length_filter_not_add (qualifies env) (MotorGroup.getMotors dv env g).1
  have hsz := getSize_after dv env g
  have hsum := qualSum_eq_total env g.m_outputVelocity (MotorGroup.getMotors dv env g).1
  unfold qualCount qualSum liveMotors
  simp only [MotorGroup.getAngle, groupAngleFold, groupAngleGo_spec, zero_add,
    Nat.zero_add, hsz]
  split_ifs with h1 h2 h2
  · rfl
  · omega
  · omega
  · have hq : ((((MotorGroup.getMotors dv env g).1.length :ℚ)) -
        (((MotorGroup.getMotors dv env g).1.filter
          (fun m => !qualifies env m)).length : ℚ)) =
        (((MotorGroup.getMotors dv env g).1.filter (qualifies env)).length : ℚ) := by
      have : ((MotorGroup.getMotors dv env g).1.filter
            (fun m => !qualifies env m)).length +
          ((MotorGroup.getMotors dv env g).1.filter (qualifies env)).length =
          (MotorGroup.getMotors dv env g).1.length := hcnt
      push_cast [← this]
      ring
    rw [hq, hsum]

/-- C1: for every MotorGroup whose poll yields live motors of which a
positive number report a valid angle `a_i` and a valid cartridge,
`getAngle()` returns the arithmetic mean over those qualifying motors of
`a_i * r_i`, where `r_i = m_outputVelocity / cartridge_i's rated rpm`;
motors failing to report angle or cartridge are excluded from both the
sum (`qualSum`) and the divisor (`qualCount`).  The claim's situation —
all N live motors valid, zero stored offsets — is the instance where the
qualifying motors are all N. -/
theorem C1_getAngle_mean (dv : ℚ) (env : Env) (g : MotorGroup)
    (h : 0 < qualCount dv env g) :
    (MotorGroup.getAngle dv env g).1 =
      some (qualSum dv env g / (qualCount dv env g : ℚ)) := by
  rw [getAngle_spec, if_neg (by omega)]

/-- Witness for C1: two healthy zero-offset motors reporting angles 1 and
2 rotations with unit gear ratio average to 3/2. -/
theorem C1_witness :
    0 < qualCount 3600 envTwo gTwo ∧
      (MotorGroup.getAngle 3600 envTwo gTwo).1 = some (3 / 2) := by
  refine ⟨by decide, ?_⟩
  rw [C1_getAngle_mean 3600 envTwo gTwo (by decide)]
  simp [qualSum, qualCount, liveMotors, MotorGroup.getMotors, pollStep,
    MotorGroup.configureMotor, envTwo, gTwo, recView, brakeOk, qualifies,
    groupContrib, Motor.getAngle, Cartridge.ratedRpm]
  norm_num

/-- C8: `getAngle()` returns the positive-infinity "no data" sentinel
(`none`) exactly when zero live motors report both a valid angle and a
valid cartridge — which covers the empty group and the all-disconnected
group, whose live set is empty; in every other case the result is a
(finite) rational angle. -/
theorem C8_sentinel_iff_no_qualifying (dv : ℚ) (env : Env) (g : MotorGroup) :
    (MotorGroup.getAngle dv env g).1 = none ↔ qualCount dv env g = 0 := by
  rw [getAngle_spec]
  split_ifs with h
  · simp [h]
  · simp [h]

/-- C2: `move(percent)` and `brake()` return 0 exactly when at least one
live motor's command returns 0, and return the `INT_MAX` failure value
when every live motor fails — in particular when there are no live
motors. -/
theorem C2_move_brake_any_success (dv : ℚ) (env : Env) (g : MotorGroup)
    (percent : ℚ) :
    ((MotorGroup.move dv env g percent).1 = 0 ↔
        ∃ m ∈ liveMotors dv env g, Motor.move env m percent = 0) ∧
      ((¬ ∃ m ∈ liveMotors dv env g, Motor.move env m percent = 0) →
        (MotorGroup.move dv env g percent).1 = intMax) ∧
      ((MotorGroup.brake dv env g).1 = 0 ↔
        ∃ m ∈ liveMotors dv env g, Motor.brake env m = 0) ∧
      ((¬ ∃ m ∈ liveMotors dv env g, Motor.brake env m = 0) →
        (MotorGroup.brake dv env g).1 = intMax) := by
  have hm : ((MotorGroup.getMotors dv env g).1.any
        (fun m => decide (Motor.move env m percent = 0)) = true) ↔
      ∃ m ∈ liveMotors dv env g, Motor.move env m percent = 0 := by
    simp [List.any_eq_true, liveMotors]
  have hb : ((MotorGroup.getMotors dv env g).1.any
        (fun m => decide (Motor.brake env m = 0)) = true) ↔
      ∃ m ∈ liveMotors dv env g, Motor.brake env m = 0 := by
    simp [List.any_eq_true, liveMotors]
  have mfst : (MotorGroup.move dv env g percent).1 =
      if ((MotorGroup.getMotors dv env g).1.any
        (fun m => decide (Motor.move env m percent = 0)) = true) then 0
      else intMax := rfl
  have bfst : (MotorGroup.brake dv env g).1 =
      if ((MotorGroup.getMotors dv env g).1.any
        (fun m => decide (Motor.brake env m = 0)) = true) then 0
      else intMax := rfl
  refine ⟨?_, ?_, ?_, ?_⟩
  · rw [mfst]
    split_ifs with h
    · exact iff_of_true rfl (hm.mp h)
    · exact iff_of_false (by decide) (fun hx => h (hm.mpr hx))
  · intro hno
    rw [mfst, if_neg (fun h => hno (hm.mp h))]
  · rw [bfst]
    split_ifs with h
    · exact iff_of_true rfl (hb.mp h)
    · exact iff_of_false (by decide) (fun hx => h (hb.mpr hx))
  · intro hno
    rw [bfst, if_neg (fun h => hno (hb.mp h))]

/-- Witness for C2: with only motor 1 accepting `move` the group call
succeeds, and with every motor rejecting `brake` it fails. -/
theorem C2_witness :
    (MotorGroup.move 3600 envTwo gTwo (1 / 2)).1 = 0 ∧
      (MotorGroup.brake 3600 envTwo gTwo).1 = intMax := by
  have h := C2_move_brake_any_success 3600 envTwo gTwo (1 / 2)
  exact ⟨h.1.mpr (by decide), h.2.2.2 (by decide)⟩

/-- C6: when no record carries the same absolute port, `addMotor(port)`
runs `configureMotor` and appends the new record whether or not that
configuration succeeded, and returns 0 exactly when it succeeded (a
non-`INFINITY` offset came back). -/
theorem C6_addMotor_always_adds (dv : ℚ) (env : Env) (g : MotorGroup)
    (port : Int) (h : ∀ r ∈ g.m_motors, r.port.natAbs ≠ port.natAbs) :
    (MotorGroup.addMotor dv env g port).state.m_motors =
        g.m_motors ++
          [⟨port,
            (MotorGroup.configureMotor dv env (recView g.m_motors) port).ret.isNone,
            (MotorGroup.configureMotor dv env (recView g.m_motors) port).ret⟩] ∧
      ((MotorGroup.addMotor dv env g port).ret = 0 ↔
        (MotorGroup.configureMotor dv env (recView g.m_motors) port).ret ≠ none) := by
  have hany : (g.m_motors.any
      (fun info => decide (info.port.natAbs = port.natAbs))) = false := by
    simp only [List.any_eq_false, decide_eq_true_eq]
    exact h
  unfold MotorGroup.addMotor
  rw [if_neg (by simp [hany])]
  refine ⟨rfl, ?_⟩
  cases hr : (MotorGroup.configureMotor dv env (recView g.m_motors) port).ret with
  | none => simp [hr, intMax]
  | some x => simp [hr]

/-- Witness for C6: adding healthy port 2 to the port-1 group appends a
record (with the code's inverted `connectedLastCycle` that a successful
configuration stores as `false`) and returns 0. -/
theorem C6_witness :
    (MotorGroup.addMotor 3600 envHealed gOne 2).state.m_motors =
        gOne.m_motors ++ [⟨2, false, some 0⟩] ∧
      (MotorGroup.addMotor 3600 envHealed gOne 2).ret = 0 := by
  have h := C6_addMotor_always_adds 3600 envHealed gOne 2 (by decide)
  constructor
  · rw [h.1]
    simp [MotorGroup.configureMotor, envHealed, gOne, recView, cfgFold, cfgFoldGo,
      Motor.getAngle]
  · exact h.2.mpr (by decide)

/-- C7: `addMotor(p)` with an already-present absolute port takes the
`errno = EEXIST` branch (a failure distinct from the generic one, which
leaves that flag clear), returns `INT_MAX`, and leaves the group — in
particular its record list — unchanged. -/
theorem C7_duplicate_rejected (dv : ℚ) (env : Env) (g : MotorGroup) (port : Int) :
    ((∃ r ∈ g.m_motors, r.port.natAbs = port.natAbs) →
      (MotorGroup.addMotor dv env g port).ret = intMax ∧
        (MotorGroup.addMotor dv env g port).eexist = true ∧
        (MotorGroup.addMotor dv env g port).state = g) ∧
    ((¬ ∃ r ∈ g.m_motors, r.port.natAbs = port.natAbs) →
      (MotorGroup.addMotor dv env g port).eexist = false) := by
  constructor
  · intro h
    have hany : (g.m_motors.any
        (fun info => decide (info.port.natAbs = port.natAbs))) = true := by
      simp only [List.any_eq_true, decide_eq_true_eq]
      exact h
    unfold MotorGroup.addMotor
    rw [if_pos (by simp [hany])]
    exact ⟨rfl, rfl, rfl⟩
  · intro h
    have hany : (g.m_motors.any
        (fun info => decide (info.port.natAbs = port.natAbs))) = false := by
      simp only [List.any_eq_false, decide_eq_true_eq]
      intro r hr
      exact fun he => h ⟨r, hr, he⟩
    unfold MotorGroup.addMotor
    rw [if_neg (by simp [hany])]

/-- Witness for C7: re-adding port 1 as `-1` hits the EEXIST branch and
changes nothing, while adding the fresh port 3 leaves the flag clear. -/
theorem C7_witness :
    (MotorGroup.addMotor 3600 envTwo gTwo (-1)).ret = intMax ∧
      (MotorGroup.addMotor 3600 envTwo gTwo (-1)).eexist = true ∧
      (MotorGroup.addMotor 3600 envTwo gTwo (-1)).state = gTwo ∧
      (MotorGroup.addMotor 3600 envTwo gTwo 3).eexist = false := by
  have h1 := (C7_duplicate_rejected 3600 envTwo gTwo (-1)).1 (by decide)
  have h2 := (C7_duplicate_rejected 3600 envTwo gTwo 3).2 (by decide)
  exact ⟨h1.1, h1.2.1, h1.2.2, h2⟩

/-- C10: on a motor whose raw encoder reading is valid and unchanged
between the calls, `setAngle(a)` succeeds mutating only the stored
offset (to `a - position`), and a following `getAngle()` returns exactly
`a`, since `position + (a - position) = a`. -/
theorem C10_setAngle_roundtrip (env : Env) (m : Motor) (a : ℚ) (t : Int)
    (h : env.rawTicks m.port = some t) :
    ∃ m', Motor.setAngle env m a = some m' ∧ m'.port = m.port ∧ m'.ov = m.ov ∧
      Motor.getAngle env m' = some a := by
  refine ⟨{ m with offset := some (a - ((t : ℚ) / 3600) * (m.ov / 3600)) },
    ?_, rfl, rfl, ?_⟩
  · simp [Motor.setAngle, h]
  · simp only [Motor.getAngle, h, Option.map_some']
    congr 1
    ring

/-- Witness for C10: writing 42 to a motor reading 3600 raw ticks reads
back as exactly 42. -/
theorem C10_witness :
    ∃ m', Motor.setAngle envTwo ⟨1, 3600, some 5⟩ 42 = some m' ∧
      m'.port = (1 : Int) ∧ m'.ov = (3600 : ℚ) ∧
      Motor.getAngle envTwo m' = some 42 :=
  C10_setAngle_roundtrip envTwo ⟨1, 3600, some 5⟩ 42 3600 (by decide)

/-- The `configureMotor` reference loop accumulates the qualifying
motors' unscaled angles and counts the non-qualifying ones. -/
lemma cfgFoldGo_spec (env : Env) :
    ∀ (l : List Motor) (a : ℚ) (k : Nat),
      cfgFoldGo env l (a, k) =
        (a + (l.map (cfgContrib env)).sum,
         k + (l.filter (fun m => !qualifies env m)).length) := by
  intro l
  induction l with
  | nil => intro a k; simp [cfgFoldGo]
  | cons m rest ih =>
    intro a k
    rcases h1 : Motor.getAngle env m with _ | x
    · simp only [cfgFoldGo, h1, ih]
      simp [qualifies, cfgContrib, h1]
      omega
    · rcases h2 : env.cartridge m.port with _ | c
      · simp only [cfgFoldGo, h1, h2, ih]
        simp [qualifies, cfgContrib, h1, h2]
        omega
      · simp only [cfgFoldGo, h1, h2, ih]
        simp [qualifies, cfgContrib, h1, h2]
        ring

/-- Non-qualifying motors contribute zero to the reference sum. -/
lemma cfgSum_eq_total (env : Env) (l : List Motor) :
    ((l.filter (qualifies env)).map (cfgContrib env)).sum =
      (l.map (cfgContrib env)).sum := by
  induction l with
  | nil => rfl
  | cons m rest ih =>
    cases hq : qualifies env m
    · have hz : cfgContrib env m = 0 := by
        unfold qualifies at hq
        unfold cfgContrib
        rcases h1 : Motor.getAngle env m with _ | x <;>
          rcases h2 : env.cartridge m.port with _ | c <;>
          simp [h1, h2] at hq ⊢

      simp [List.filter_cons, hq, ih, hz]
    · simp [List.filter_cons, hq, ih]

/-- The reference angle `configureMotor` actually computes: the plain,
unscaled mean of the qualifying other connected motors' reported angles
(zero when none qualify). -/
lemma cfg_refAngle_eq (dv : ℚ) (env : Env) (ms : List (Int × EAngle)) (port : Int) :
    (MotorGroup.configureMotor dv env ms port).refAngle =
      if cfgQualCount dv env ms port = 0 then 0
      else cfgQualSum dv env ms port / (cfgQualCount dv env ms port : ℚ) := by
  have hcnt := length_filter_not_add (qualifies env) (cfgOthers dv env ms port)
  have hsum := cfgSum_eq_total env (cfgOthers dv env ms port)
  have href : (MotorGroup.configureMotor dv env ms port).refAngle =
      (if (cfgOthers dv env ms port).length ≠ (cfgFold env (cfgOthers dv env ms port)).2
       then (cfgFold env (cfgOthers dv env ms port)).1 /
         (((cfgOthers dv env ms port).length : ℚ) -
           ((cfgFold env (cfgOthers dv env ms port)).2 : ℚ))
       else 0) := by
    unfold MotorGroup.configureMotor
    rcases env.rawTicks port with _ | t <;> rfl
  rw [href]
  unfold cfgQualCount cfgQualSum
  simp only [cfgFold, cfgFoldGo_spec, zero_add, Nat.zero_add]
  split_ifs with h1 h2 h2
  · omega
  · have hq : (((cfgOthers dv env ms port).length : ℚ) -
        (((cfgOthers dv env ms port).filter (fun m => !qualifies env m)).length : ℚ)) =
        (((cfgOthers dv env ms port).filter (qualifies env)).length : ℚ) := by
      push_cast [← hcnt]
      ring
    rw [hq, hsum]
  · rfl
  · omega

/-- C3 counterexample: port 2 reconfigures while the single other motor
(port 1) reports angle 90 with a RED (100 rpm) cartridge and the group's
output velocity is 200 rpm.  The claim's reference angle — each
contributor's angle scaled by its own gear ratio 200/100 — is 180, but
the code computes the unscaled mean 90: the scaling the claim describes
does not happen. -/
theorem C3_counterexample :
    (MotorGroup.configureMotor 3600 envCfg msCfg 2).refAngle = 90 ∧
      specRefAngle 3600 envCfg 200 msCfg 2 = 180 ∧
      (MotorGroup.configureMotor 3600 envCfg msCfg 2).refAngle ≠
        specRefAngle 3600 envCfg 200 msCfg 2 := by
  have h1 : (MotorGroup.configureMotor 3600 envCfg msCfg 2).refAngle = 90 := by
    rw [cfg_refAngle_eq]
    simp [cfgQualCount, cfgQualSum, cfgOthers, envCfg, msCfg, qualifies,
      cfgContrib, Motor.getAngle]
  have h2 : specRefAngle 3600 envCfg 200 msCfg 2 = 180 := by
    simp [specRefAngle, cfgOthers, envCfg, msCfg, qualifies, groupContrib,
      Motor.getAngle, Cartridge.ratedRpm]
    norm_num
  exact ⟨h1, h2, by rw [h1, h2]; norm_num⟩

/-- C3 amended: during reconfiguration the reference angle is the plain
arithmetic mean over the other connected motors of their reported angles
— no gear-ratio scaling of the contributors — with motors failing to
report angle or cartridge excluded from both sum and divisor and zero
when all fail; the reconnecting motor's angle is then set to exactly this
reference angle (no adjustment for its own cartridge's ratio; its
cartridge is only consulted for the success flag), storing offset
`refAngle - position`. -/
theorem C3_amended_reference_angle (dv : ℚ) (env : Env)
    (ms : List (Int × EAngle)) (port : Int) :
    (MotorGroup.configureMotor dv env ms port).refAngle =
        (if cfgQualCount dv env ms port = 0 then 0
         else cfgQualSum dv env ms port / (cfgQualCount dv env ms port : ℚ)) ∧
      (MotorGroup.configureMotor dv env ms port).ret =
        (match env.rawTicks port with
         | none => none
         | some t =>
           if (MotorGroup.configureMotor dv env ms port).success
           then some ((MotorGroup.configureMotor dv env ms port).refAngle -
             ((t : ℚ) / 3600) * (dv / 3600))
           else none) := by
  refine ⟨cfg_refAngle_eq dv env ms port, ?_⟩
  unfold MotorGroup.configureMotor
  rcases env.rawTicks port with _ | t
  · rfl
  · rfl

/-- C4, at the failing input: port 2 reconnects while port 1 — the first
record whose motor reports a valid brake mode, HOLD — is in the group.
The claim says HOLD is applied to the reconnecting motor (port 2); the
code's loop instead writes the mode back to port 1, the very motor it
read it from (`m.setBrakeMode(mode)` with `mode = m.getBrakeMode()`), and
never touches port 2's brake mode. -/
theorem C4_brake_write_misdirected :
    (MotorGroup.configureMotor 3600 envHold (recView gTwo.m_motors) 2).brakeWrites =
        [((1 : Int), BrakeMode.hold)] ∧
      ∀ w ∈ (MotorGroup.configureMotor 3600 envHold
        (recView gTwo.m_motors) 2).brakeWrites, w.1 ≠ 2 := by
  constructor
  · decide
  · decide

/-- C5, at the failing input: `addMotor(2)` while port 2's raw-position
read fails leaves a record with `connectedLastCycle = true` (the code
stores `offset == INFINITY` there, which is `true` exactly on failure),
so the next poll — port 2 now fully healthy — invokes `configureMotor`
for no record at all: the failed motor is not retried, contradicting the
retry-every-poll claim. -/
theorem C5_failed_add_marked_connected :
    (MotorGroup.addMotor 3600 envTicksBad gOne 2).ret = intMax ∧
      (MotorGroup.addMotor 3600 envTicksBad gOne 2).state.m_motors =
        [⟨1, true, some 0⟩, ⟨2, true, none⟩] ∧
      (MotorGroup.getMotors 3600 envHealed
        (MotorGroup.addMotor 3600 envTicksBad gOne 2).state).2.2 = [] := by
  refine ⟨?_, ?_, ?_⟩ <;> decide

/-- Against a motor that stays live but rejects the command, one recursion
step of `setCurrentLimit` reproduces the identical call. -/
lemma sclBad_step (limit : ℚ) (n : Nat) :
    P4.setCurrentLimitFuel envSclBad (n + 1) gOne limit =
      P4.setCurrentLimitFuel envSclBad n gOne limit := by
  have hg : P4.getMotors envSclBad gOne = ([⟨1, 200, some 0⟩], gOne) := by decide
  simp only [P4.setCurrentLimitFuel, hg]
  simp [envSclBad]

/-- The recursion therefore consumes any amount of fuel without
returning. -/
lemma sclBad_none (limit : ℚ) :
    ∀ n, P4.setCurrentLimitFuel envSclBad n gOne limit = none := by
  intro n
  induction n with
  | zero => rfl
  | succ k ih => rw [sclBad_step limit k]; exact ih

/-- C9 counterexample: with one motor that stays connected, polls as
live, but rejects every `setCurrentLimit` command, the recursion never
terminates — refuting "this recursion terminates for every behaviour of
the underlying motors". -/
theorem C9_counterexample : ¬ P4.SclTerminates envSclBad gOne 5 := by
  rintro ⟨n, r, h⟩
  rw [sclBad_none 5 n] at h
  cases h

/-- C9 amended: `setCurrentLimit` divides the limit evenly — each of the
n live motors of the current poll is issued `limit / n` — and restarts
itself wholesale on the first per-motor failure; with zero live motors it
returns `INT_MAX` immediately, and a pass in which every live motor
accepts its share returns 0.  (Termination is not guaranteed: see the
counterexample.) -/
theorem C9_amended_setCurrentLimit (env : Env) (g : MotorGroup) (limit : ℚ)
    (n : Nat) :
    ((P4.getMotors env g).1.length = 0 →
      P4.setCurrentLimitFuel env (n + 1) g limit =
        some (intMax, (P4.getMotors env g).2)) ∧
    ((P4.getMotors env g).1 ≠ [] →
      (∀ m ∈ (P4.getMotors env g).1,
        env.setCurrentLimitOk m.port (limit / ((P4.getMotors env g).1.length : ℚ)) = true) →
      P4.setCurrentLimitFuel env (n + 1) g limit =
        some (0, (P4.getMotors env g).2)) := by
  constructor
  · intro h0
    simp only [P4.setCurrentLimitFuel]
    rw [if_pos h0]
  · intro hne hall
    simp only [P4.setCurrentLimitFuel]
    rw [if_neg (by simpa using hne)]
    have hf : (P4.getMotors env g).1.find?
        (fun m => !env.setCurrentLimitOk m.port
          (limit / ((P4.getMotors env g).1.length : ℚ))) = none := by
      rw [List.find?_eq_none]
      intro m hm
      simp [hall m hm]
    rw [hf]

/-- Witness for C9's amended statement: the empty group fails
immediately, and a healthy two-motor group that accepts its shares
returns 0 on the first pass. -/
theorem C9_witness :
    P4.setCurrentLimitFuel envHealed 1 gNone 5 = some (intMax, gNone) ∧
      P4.setCurrentLimitFuel envTwo 1 gTwo 6 = some (0, gTwo) := by
  constructor
  · exact ((C9_amended_setCurrentLimit envHealed gNone 5 0).1 (by decide)).trans
      (by decide)
  · exact ((C9_amended_setCurrentLimit envTwo gTwo 6 0).2 (by decide)
      (by decide)).trans (by decide)

end lemlib

